import Mathlib

/-!
Verification of the training driver `src/train.py` of the house-rent MLOps
practice repository.  The driver loads a CSV, derives a log-transformed
target, materialises an engineered feature matrix, expands a hyper-parameter
grid, tracks one run per parameter set, selects the best run by mean
cross-validated RMSE and exports the winning model to a model store.

The embedding below models pandas data frames as lists of rows, rational
numbers stand for the floating-point metric and parameter values, and the
external collaborators (numpy's `log1p`, the preprocessing pipeline, the
gradient-boosting regressor, the per-fold CV scorer and the chart renderer)
are abstract parameters packaged in the `Ext` structure.
-/

namespace HouseRent

/-- An ordered hyper-parameter grid: keys in Python-dict insertion order, each
with its ordered list of candidate values. -/
abbrev Grid (α : Type) := List (String × List α)

/-- A concrete parameter set: one value assigned to each key, in key order. -/
abbrev ParamSet (α : Type) := List (String × α)

/-- Modelled from the spec: `get_param_set` is imported in `src/train.py` from
`src.common.utils`, whose source file is not in the snapshot.  Spec section 4.1:
the full Cartesian expansion of the grid, an ordered sequence of full
assignments in the lexicographic product order over the input key order (the
first key varies slowest). -/
def get_param_set {α : Type} : Grid α → List (ParamSet α)
  | [] => [[]]
  | (k, vs) :: rest =>
      vs.flatMap fun v => (get_param_set rest).map fun d => (k, v) :: d

/-- `d` is a full assignment over grid `g`: the same keys in the same order,
each key paired with a value drawn from its candidate list. -/
def IsAssignment {α : Type} : Grid α → ParamSet α → Prop
  | [], [] => True
  | [], _ :: _ => False
  | _ :: _, [] => False
  | (k, vs) :: rest, (k', v) :: d => k' = k ∧ v ∈ vs ∧ IsAssignment rest d

/-- The assignment at position `n` of the lexicographic product order over the
key order: mixed-radix decoding of `n`, the first key varying slowest with
weight the product of the later candidate-list lengths. -/
def nth_assignment {α : Type} [Inhabited α] : Grid α → ℕ → ParamSet α
  | [], _ => []
  | (k, vs) :: rest, n =>
      let w := (rest.map fun kv => kv.2.length).prod
      (k, vs.getD (n / w) default) :: nth_assignment rest (n % w)

theorem get_param_set_length {α : Type} (g : Grid α) :
    (get_param_set g).length = (g.map fun kv => kv.2.length).prod := by
  induction g with
  | nil => rfl
  | cons kv rest ih =>
      obtain ⟨k, vs⟩ := kv
      simp [get_param_set, List.length_flatMap, Function.comp_def, ih,
        List.map_const', List.sum_replicate, smul_eq_mul]

theorem mem_get_param_set {α : Type} (g : Grid α) (d : ParamSet α) :
    d ∈ get_param_set g ↔ IsAssignment g d := by
  induction g generalizing d with
  | nil => cases d <;> simp [get_param_set, IsAssignment]
  | cons kv rest ih =>
      obtain ⟨k, vs⟩ := kv
      cases d with
      | nil => simp [get_param_set, IsAssignment]
      | cons kv' d' =>
          obtain ⟨k', v⟩ := kv'
          simp only [get_param_set, List.mem_flatMap, List.mem_map, IsAssignment]
          constructor
          · rintro ⟨a, ha, x, hx, hex⟩
            obtain ⟨h1, h2⟩ := Prod.mk.injEq .. ▸ List.cons.injEq .. ▸ hex
            cases hex
            exact ⟨rfl, ha, (ih d').mp hx⟩
          · rintro ⟨rfl, hv, hd⟩
            exact ⟨v, hv, d', (ih d').mpr hd, rfl⟩

theorem get_param_set_nodup {α : Type} (g : Grid α)
    (h : ∀ kv ∈ g, kv.2.Nodup) : (get_param_set g).Nodup := by
  induction g with
  | nil => simp [get_param_set]
  | cons kv rest ih =>
      obtain ⟨k, vs⟩ := kv
      rw [get_param_set, List.nodup_flatMap]
      refine ⟨fun v _ => ?_, ?_⟩
      · exact (ih fun kv hkv => h kv (List.mem_cons_of_mem _ hkv)).map
          (fun d d' hdd => by simpa using hdd)
      · have hvs : vs.Nodup := by
          have := h (k, vs) (List.mem_cons_self _ _)
          simpa using this
        refine hvs.imp ?_
        intro a b hab
        intro x hxa hxb
        simp only [List.mem_map] at hxa hxb
        obtain ⟨da, _, hda⟩ := hxa
        obtain ⟨db, _, hdb⟩ := hxb
        apply hab
        have : (k, a) = (k, b) := by
          have := hda.trans hdb.symm
          exact (List.cons.injEq .. ▸ this).1
        simpa using this

theorem range_mul_flatMap (a w : ℕ) :
    List.range (a * w) =
      (List.range a).flatMap fun i => (List.range w).map fun j => i * w + j := by
  induction a with
  | zero => simp
  | succ a ih =>
      rw [Nat.succ_mul, List.range_add, ih, List.range_succ, List.flatMap_append]
      simp

theorem flatMap_eq_range {α β : Type} [Inhabited α] (vs : List α) (F : α → List β) :
    vs.flatMap F =
      (List.range vs.length).flatMap fun i => F (vs.getD i default) := by
  induction vs with
  | nil => simp
  | cons v vs ih =>
      rw [List.flatMap_cons, List.length_cons, List.range_succ_eq_map,
        List.flatMap_cons, List.flatMap_map]
      simp only [List.getD_cons_zero, List.getD_cons_succ, Function.comp_def]
      rw [ih]

theorem get_param_set_eq_nth {α : Type} [Inhabited α] (g : Grid α) :
    get_param_set g =
      (List.range ((g.map fun kv => kv.2.length).prod)).map (nth_assignment g) := by
  induction g with
  | nil => rfl
  | cons kv rest ih =>
      obtain ⟨k, vs⟩ := kv
      have hprod : ((((k, vs) : String × List α) :: rest).map fun kv => kv.2.length).prod
          = vs.length * (rest.map fun kv => kv.2.length).prod := by
        simp
      set w := (rest.map fun kv => kv.2.length).prod with hw
      rcases Nat.eq_zero_or_pos w with hw0 | hwpos
      · have hrest : get_param_set rest = [] := by
          rw [ih, hw0]; rfl
        rw [get_param_set, hrest, hprod, hw0]
        simp
      · rw [get_param_set, ih, hprod, range_mul_flatMap, List.map_flatMap,
          flatMap_eq_range vs]
        apply List.flatMap_congr
        intro i hi
        rw [List.map_map, List.map_map]
        apply List.map_congr_left
        intro j hj
        have hjw : j < w := List.mem_range.mp hj
        simp only [Function.comp_def, nth_assignment, ← hw]
        have hdiv : (i * w + j) / w = i := by
          rw [Nat.mul_comm i w, Nat.mul_add_div hwpos, Nat.div_eq_of_lt hjw,
            Nat.add_zero]
        have hmod : (i * w + j) % w = j := by
          rw [Nat.mul_comm i w, Nat.mul_add_mod, Nat.mod_eq_of_lt hjw]
        rw [hdiv, hmod]

/-- One row of the raw training CSV `house_rent_train.csv` (src/train.py:29).
The `rent` target and the two dropped columns are explicit; `predictors`
abstracts all remaining predictor columns. -/
structure RawRow (π : Type) where
  rent : ℚ
  area_locality : String
  posted_on : String
  predictors : π

/-- A run record tracked by mlflow for one grid-search iteration
(src/train.py:60-106): tag, logged parameters, the logged `RMSE_CV` metric,
the logged model, and the best-effort chart.  `preprocessor_id` records which
preprocessing-pipeline instance the logged `Pipeline` refers to, and `usedX`
records the feature matrix that was passed to `rmse_cv_score` and to the
chart logger in that run. -/
structure RunRecord (φ μ χ : Type) where
  run_id : ℕ
  estimator_name : String
  params : ParamSet ℚ
  rmse_cv : ℚ
  preprocessor_id : ℕ
  usedX : List φ
  model : μ
  chart : Option χ

/-- Arithmetic mean of a list of rationals, as `score_cv.mean()`. -/
def mean (l : List ℚ) : ℚ := l.sum / l.length

/-- The module-level `preprocess_pipeline` object imported at the top of
`src/train.py`: a single shared instance, identified by a fixed tag. -/
def shared_preprocessor_id : ℕ := 0

/-- The experiment name hard-coded in src/train.py:56. -/
def experiment_name : String := "new_experiment"

/-- The hyper-parameter candidate grid hard-coded in src/train.py:47-51. -/
def params_candidates : Grid ℚ :=
  [("learning_rate", [1/100]), ("max_depth", [3]), ("max_features", [1])]

/-- External collaborators of the driver, abstracted: numpy's `log1p`, the
preprocessing pipeline (`src/preprocess.py`, not in the snapshot — modelled
from the spec, section 4.3: `fit` learns internal statistics from the raw
predictors and the target, `apply` transforms one row with learned
statistics, so the transformed matrix has one row per training example), the
gradient-boosting regressor's fit, the per-fold CV scorer behind
`rmse_cv_score` (the estimator it scores is determined by the parameter set),
and the feature-importance chart renderer. -/
structure Ext (π φ σ μ χ : Type) where
  log1p : ℚ → ℚ
  ppFit : List π → List ℚ → σ
  ppApply : σ → π → φ
  fitRegr : ParamSet ℚ → List φ → List ℚ → μ
  scoreFolds : ParamSet ℚ → List φ → List ℚ → List ℚ
  render : List φ → μ → Except String χ

/-- Modelled from the spec: `log_feature_importance` (imported in
`src/train.py` from `src.common.logger`, whose source file is not in the
snapshot).  Spec section 4.5: renders and persists a feature-importance chart;
"Failure here should not abort the run (best-effort logging)" — an internal
rendering failure is absorbed into `none`, never propagated to the caller. -/
def log_feature_importance {φ μ χ : Type} (render : List φ → μ → Except String χ)
    (train : List φ) (model : μ) : Option χ :=
  (render train model).toOption

/-- `_X = train_df.drop(["rent", "area_locality", "posted_on"], axis=1)`
(src/train.py:32). -/
def dropped {π : Type} (df : List (RawRow π)) : List π :=
  df.map fun r => r.predictors

/-- `y = np.log1p(train_df["rent"])` (src/train.py:33). -/
def target_y {π φ σ μ χ : Type} (E : Ext π φ σ μ χ) (df : List (RawRow π)) : List ℚ :=
  df.map fun r => E.log1p r.rent

/-- `X = preprocess_pipeline.fit_transform(X=_X, y=y)` (src/train.py:34):
learn the pipeline state from the data, return it with the transformed
feature matrix. -/
def fit_transform {π φ σ μ χ : Type} (E : Ext π φ σ μ χ) (xs : List π) (y : List ℚ) :
    σ × List φ :=
  let s := E.ppFit xs y
  (s, xs.map (E.ppApply s))

/-- `X.assign(rent=y).to_csv(...)` (src/train.py:38-41): the rows persisted to
`storage/house_rent_train_features.csv` — each engineered feature row paired
with its `rent` column value. -/
def persisted_features {π φ σ μ χ : Type} (E : Ext π φ σ μ χ) (df : List (RawRow π)) :
    List (φ × ℚ) :=
  ((fit_transform E (dropped df) (target_y E df)).2).zip (target_y E df)

/-- One iteration of the grid-search loop (src/train.py:60-106), in
state-passing form over the shared preprocessing pipeline's state `s`:
`pipeline.fit(_X, y)` re-fits the shared preprocessor and then the regressor
on the transformed data; `rmse_cv_score(regr, X, y)` and
`log_feature_importance(train=X, model=regr)` both receive the feature matrix
`X` computed before the loop. -/
def run_once {π φ σ μ χ : Type} (E : Ext π φ σ μ χ) (X0 : List π) (X : List φ)
    (y : List ℚ) (i : ℕ) (params : ParamSet ℚ) (_s : σ) : RunRecord φ μ χ × σ :=
  let s' := E.ppFit X0 y
  let regr := E.fitRegr params (X0.map (E.ppApply s')) y
  let scores := E.scoreFolds params X y
  ({ run_id := i
     estimator_name := "GradientBoostingRegressor"
     params := params
     rmse_cv := mean scores
     preprocessor_id := shared_preprocessor_id
     usedX := X
     model := regr
     chart := log_feature_importance E.render X regr }, s')

/-- The grid-search loop `for i, params in enumerate(param_set)`
(src/train.py:60): one tracked run per parameter set, threading the shared
preprocessing pipeline's state. -/
def grid_loop {π φ σ μ χ : Type} (E : Ext π φ σ μ χ) (X0 : List π) (X : List φ)
    (y : List ℚ) : List (ℕ × ParamSet ℚ) → σ → List (RunRecord φ μ χ) × σ
  | [], s => ([], s)
  | (i, p) :: rest, s =>
      let rs' := run_once E X0 X y i p s
      let tail := grid_loop E X0 X y rest rs'.2
      (rs'.1 :: tail.1, tail.2)

instance {φ μ χ : Type} :
    DecidableRel fun (a b : RunRecord φ μ χ) => a.rmse_cv ≤ b.rmse_cv :=
  fun a b => inferInstanceAs (Decidable (a.rmse_cv ≤ b.rmse_cv))

/-- `mlflow.search_runs(order_by=["metrics.RMSE_CV ASC"], max_results=1)`
(src/train.py:109-111): the experiment's run records sorted by ascending mean
CV RMSE (a stable sort), truncated to at most one result. -/
def search_runs {φ μ χ : Type} (runs : List (RunRecord φ μ χ)) :
    List (RunRecord φ μ χ) :=
  (List.insertionSort (fun a b => a.rmse_cv ≤ b.rmse_cv) runs).take 1

/-- A declared callable signature of a bentoml model store entry. -/
structure SigSpec where
  batchable : Bool
  batch_dim : ℕ
deriving DecidableEq

/-- The bentoml model store entry produced by `bentoml.sklearn.save_model`
(src/train.py:125-130). -/
structure BentoModel (μ : Type) where
  name : String
  model : μ
  signatures : List (String × SigSpec)
  metadata : ParamSet ℚ

/-- Best-run selection and model export (src/train.py:109-130): search the
experiment's runs ordered by ascending `RMSE_CV`, fail with a diagnostic
naming the experiment if no run exists, otherwise export the best run's model
to the store entry `house_rent` with its logged parameters as metadata and a
batchable `predict` signature with batch dimension 0. -/
def select_and_export {φ μ χ : Type} (runs : List (RunRecord φ μ χ)) :
    Except String (BentoModel μ) :=
  match search_runs runs with
  | [] => Except.error ("Found no runs for experiment '" ++ experiment_name ++ "'")
  | best :: _ =>
      Except.ok
        { name := "house_rent"
          model := best.model
          signatures := [("predict", { batchable := true, batch_dim := 0 })]
          metadata := best.params }

/-- The whole `__main__` driver of src/train.py in sequence: load, derive the
target, fit-transform and persist features, expand the grid, run the loop,
then select and export.  `prior` is whatever runs the tracked experiment
already holds before this execution. -/
def train_main {π φ σ μ χ : Type} (E : Ext π φ σ μ χ)
    (prior : List (RunRecord φ μ χ)) (df : List (RawRow π)) :
    Except String (BentoModel μ) :=
  let X0 := dropped df
  let y := target_y E df
  let sX := fit_transform E X0 y
  let ps := get_param_set params_candidates
  let runs := (grid_loop E X0 sX.2 y ps.enum sX.1).1
  select_and_export (prior ++ runs)

/-- A scikit-learn style estimator: hyper-parameters plus the fitted state,
`none` before any fit. -/
structure Estimator (P F : Type) where
  params : P
  fitted : Option F

/-- `sklearn.base.clone`: a fresh unfitted estimator carrying the same
hyper-parameters. -/
def clone {P F : Type} (e : Estimator P F) : Estimator P F :=
  { params := e.params, fitted := none }

/-- Fitting an estimator on fold data replaces its fitted state. -/
def fitEst {P F D : Type} (fit : P → D → F) (e : Estimator P F) (d : D) :
    Estimator P F :=
  { e with fitted := some (fit e.params d) }

/-- Modelled from the spec: `rmse_cv_score` (imported in `src/train.py` from
`src.common.metrics`, whose source file is not in the snapshot).  Spec section
4.2: k-fold cross-validation "fitting a fresh estimator clone per fold",
scoring each fold and returning the per-fold RMSE values.  State-passing
embedding over the caller's estimator: the result pairs the per-fold scores
with the caller's estimator as it stands after the call; only clones are ever
fitted. -/
def rmse_cv_score {P F D : Type} (fit : P → D → F) (score : Estimator P F → D → ℚ)
    (e : Estimator P F) (folds : List (D × D)) : List ℚ × Estimator P F :=
  (folds.map fun fold => score (fitEst fit (clone e) fold.1) fold.2, e)

instance {φ μ χ : Type} :
    IsTotal (RunRecord φ μ χ) fun a b => a.rmse_cv ≤ b.rmse_cv :=
  ⟨fun a b => le_total a.rmse_cv b.rmse_cv⟩

instance {φ μ χ : Type} :
    IsTrans (RunRecord φ μ χ) fun a b => a.rmse_cv ≤ b.rmse_cv :=
  ⟨fun _ _ _ => le_trans⟩

theorem search_runs_cons {φ μ χ : Type} (runs : List (RunRecord φ μ χ))
    (h : runs ≠ []) :
    ∃ best, search_runs runs = [best] ∧ best ∈ runs ∧
      ∀ r ∈ runs, best.rmse_cv ≤ r.rmse_cv := by
  have hperm :=
    List.perm_insertionSort (fun a b : RunRecord φ μ χ => a.rmse_cv ≤ b.rmse_cv) runs
  have hsorted :=
    List.sorted_insertionSort (fun a b : RunRecord φ μ χ => a.rmse_cv ≤ b.rmse_cv) runs
  cases hs : List.insertionSort (fun a b : RunRecord φ μ χ => a.rmse_cv ≤ b.rmse_cv) runs with
  | nil =>
      rw [hs] at hperm
      have hlen := hperm.length_eq
      simp only [List.length_nil] at hlen
      exact absurd (List.length_eq_zero.mp hlen.symm) h
  | cons b t =>
      refine ⟨b, ?_, ?_, ?_⟩
      · rw [search_runs, hs]; rfl
      · refine hperm.mem_iff.mp ?_
        rw [hs]
        exact List.mem_cons_self b t
      · intro r hr
        have hr' : r ∈ b :: t := by
          rw [← hs]
          exact (hperm.symm.mem_iff).mp hr
        rcases List.mem_cons.mp hr' with rfl | hrt
        · exact le_refl _
        · rw [hs] at hsorted
          exact (List.sorted_cons.mp hsorted).1 r hrt

theorem select_and_export_ok {φ μ χ : Type} (runs : List (RunRecord φ μ χ))
    (h : runs ≠ []) : ∃ best, best ∈ runs ∧
      select_and_export runs = Except.ok
        { name := "house_rent"
          model := best.model
          signatures := [("predict", { batchable := true, batch_dim := 0 })]
          metadata := best.params } := by
  obtain ⟨best, hsel, hmem, -⟩ := search_runs_cons runs h
  refine ⟨best, hmem, ?_⟩
  rw [select_and_export, hsel]

/-- Claim C1: best-run selection returns the run record with minimum mean
cross-validated RMSE — for every non-empty list of run records,
`mlflow.search_runs(order_by=["metrics.RMSE_CV ASC"], max_results=1)` yields a
single run that belongs to the list and whose `RMSE_CV` metric is less than or
equal to that of every run in the list. -/
theorem best_run_selection_min {φ μ χ : Type} (runs : List (RunRecord φ μ χ))
    (h : runs ≠ []) :
    ∃ best, search_runs runs = [best] ∧ best ∈ runs ∧
      ∀ r ∈ runs, best.rmse_cv ≤ r.rmse_cv :=
  search_runs_cons runs h

/-- A concrete run record over trivial feature/model/chart types, used to
evaluate selection on explicit inputs. -/
def mkRun (i : ℕ) (q : ℚ) : RunRecord Unit Unit Unit :=
  { run_id := i
    estimator_name := "GradientBoostingRegressor"
    params := []
    rmse_cv := q
    preprocessor_id := shared_preprocessor_id
    usedX := []
    model := ()
    chart := none }

/-- Witness for C1 at the spec's example: three runs with mean RMSE 5.0, 2.0
and 3.0 — the hypothesis holds, the theorem applies, and selection returns the
run with RMSE 2.0. -/
theorem best_run_selection_min_witness :
    (([mkRun 0 5, mkRun 1 2, mkRun 2 3] : List (RunRecord Unit Unit Unit)) ≠ []) ∧
    (∃ best, search_runs [mkRun 0 5, mkRun 1 2, mkRun 2 3] = [best] ∧
      best ∈ [mkRun 0 5, mkRun 1 2, mkRun 2 3] ∧
      ∀ r ∈ [mkRun 0 5, mkRun 1 2, mkRun 2 3], best.rmse_cv ≤ r.rmse_cv) ∧
    search_runs [mkRun 0 5, mkRun 1 2, mkRun 2 3] = [mkRun 1 2] :=
  ⟨by simp,
   best_run_selection_min [mkRun 0 5, mkRun 1 2, mkRun 2 3] (by simp),
   by rfl⟩

/-- Claim C2: with zero run records at selection time the driver fails with
`Found no runs for experiment 'new_experiment'` — an error that contains the
experiment name — and no model store entry is exported. -/
theorem zero_runs_fatal (φ μ χ : Type) :
    select_and_export ([] : List (RunRecord φ μ χ)) =
      Except.error ("Found no runs for experiment '" ++ experiment_name ++ "'") ∧
    (∃ pre post,
      ("Found no runs for experiment '" ++ experiment_name ++ "'" : String) =
        pre ++ experiment_name ++ post) ∧
    ∀ entry : BentoModel μ,
      select_and_export ([] : List (RunRecord φ μ χ)) ≠ Except.ok entry := by
  refine ⟨rfl, ⟨"Found no runs for experiment '", "'", rfl⟩, fun entry hentry => ?_⟩
  rw [show select_and_export ([] : List (RunRecord φ μ χ)) =
      Except.error ("Found no runs for experiment '" ++ experiment_name ++ "'") from rfl]
    at hentry
  exact Except.noConfusion hentry

/-- Claim C5: the target vector is `log1p` of the `rent` column, derived once
from the raw dataset, and the persisted feature CSV has as many rows as the
input training CSV with a `rent` column equal element-wise to `log1p` of the
original `rent` column. -/
theorem target_and_persisted_features {π φ σ μ χ : Type} (E : Ext π φ σ μ χ)
    (df : List (RawRow π)) :
    target_y E df = df.map (fun r => E.log1p r.rent) ∧
    (persisted_features E df).length = df.length ∧
    (persisted_features E df).map Prod.snd = df.map (fun r => E.log1p r.rent) := by
  have hlen : ((fit_transform E (dropped df) (target_y E df)).2).length =
      (target_y E df).length := by
    simp [fit_transform, dropped, target_y]
  refine ⟨rfl, ?_, ?_⟩
  · rw [persisted_features, List.length_zip, hlen]
    simp [target_y]
  · rw [persisted_features, List.map_snd_zip _ _ (le_of_eq hlen.symm)]
    rfl

/-- Claim C7: `rmse_cv_score` does not mutate the caller's estimator — the
estimator returned by the state-passing embedding is the caller's estimator
with its fitted state intact, and the per-fold scores depend only on the
estimator's hyper-parameters, because every fold fits a fresh clone. -/
theorem rmse_cv_score_no_mutation {P F D : Type} (fit : P → D → F)
    (score : Estimator P F → D → ℚ) (e e' : Estimator P F) (folds : List (D × D))
    (h : e.params = e'.params) :
    (rmse_cv_score fit score e folds).2 = e ∧
    ((rmse_cv_score fit score e folds).2).fitted = e.fitted ∧
    (rmse_cv_score fit score e folds).1 = (rmse_cv_score fit score e' folds).1 := by
  have hclone : clone e = clone e' := by
    simp [clone, h]
  exact ⟨rfl, rfl, by simp [rmse_cv_score, hclone]⟩

/-- Witness for C7: a fitted estimator over concrete rational data keeps its
fitted state across `rmse_cv_score`, and scoring agrees with the unfitted
estimator carrying the same hyper-parameters. -/
theorem rmse_cv_score_no_mutation_witness :
    ((⟨1, some 7⟩ : Estimator ℚ ℚ).params = (⟨1, none⟩ : Estimator ℚ ℚ).params) ∧
    ((rmse_cv_score (fun p d => p + d) (fun est d => est.params + d)
        (⟨1, some 7⟩ : Estimator ℚ ℚ) [((2 : ℚ), (3 : ℚ))]).2 = ⟨1, some 7⟩ ∧
      ((rmse_cv_score (fun p d => p + d) (fun est d => est.params + d)
        (⟨1, some 7⟩ : Estimator ℚ ℚ) [((2 : ℚ), (3 : ℚ))]).2).fitted = some 7 ∧
      (rmse_cv_score (fun p d => p + d) (fun est d => est.params + d)
        (⟨1, some 7⟩ : Estimator ℚ ℚ) [((2 : ℚ), (3 : ℚ))]).1 =
      (rmse_cv_score (fun p d => p + d) (fun est d => est.params + d)
        (⟨1, none⟩ : Estimator ℚ ℚ) [((2 : ℚ), (3 : ℚ))]).1) :=
  ⟨rfl, rmse_cv_score_no_mutation (fun p d => p + d)
    (fun est d => est.params + d) ⟨1, some 7⟩ ⟨1, none⟩ [((2 : ℚ), (3 : ℚ))] rfl⟩

/-- Claim C3: `get_param_set` returns the full Cartesian expansion — the
length is the product of the candidate-list lengths, membership is exactly
the full-assignment property (one candidate value per key, in key order),
there are no duplicates when the candidate lists have none, and position `n`
holds the mixed-radix decoding of `n`, i.e. the sequence is ordered by the
lexicographic product order over the input key order. -/
theorem get_param_set_cartesian {α : Type} [Inhabited α] (g : Grid α)
    (hnd : ∀ kv ∈ g, kv.2.Nodup) :
    (get_param_set g).length = (g.map fun kv => kv.2.length).prod ∧
    (∀ d, d ∈ get_param_set g ↔ IsAssignment g d) ∧
    (get_param_set g).Nodup ∧
    get_param_set g =
      (List.range ((g.map fun kv => kv.2.length).prod)).map (nth_assignment g) :=
  ⟨get_param_set_length g, fun d => mem_get_param_set g d,
    get_param_set_nodup g hnd, get_param_set_eq_nth g⟩

/-- Witness for C3 at the spec's example grid: the hypothesis holds, the
theorem applies, and the expansion is exactly the two-element sequence the
spec lists, in that order. -/
theorem get_param_set_cartesian_witness :
    (∀ kv ∈ ([("a", [1, 2]), ("b", [3])] : Grid ℕ), kv.2.Nodup) ∧
    ((get_param_set ([("a", [1, 2]), ("b", [3])] : Grid ℕ)).length =
        (([("a", [1, 2]), ("b", [3])] : Grid ℕ).map fun kv => kv.2.length).prod ∧
      (∀ d, d ∈ get_param_set ([("a", [1, 2]), ("b", [3])] : Grid ℕ) ↔
        IsAssignment ([("a", [1, 2]), ("b", [3])] : Grid ℕ) d) ∧
      (get_param_set ([("a", [1, 2]), ("b", [3])] : Grid ℕ)).Nodup ∧
      get_param_set ([("a", [1, 2]), ("b", [3])] : Grid ℕ) =
        (List.range ((([("a", [1, 2]), ("b", [3])] : Grid ℕ).map
          fun kv => kv.2.length).prod)).map
          (nth_assignment ([("a", [1, 2]), ("b", [3])] : Grid ℕ))) ∧
    get_param_set ([("a", [1, 2]), ("b", [3])] : Grid ℕ) =
      [[("a", 1), ("b", 3)], [("a", 2), ("b", 3)]] :=
  ⟨by decide, get_param_set_cartesian _ (by decide), by rfl⟩

theorem get_param_set_nil_of_empty {α : Type} (g : Grid α)
    (h : ∃ kv ∈ g, kv.2 = []) : get_param_set g = [] := by
  induction g with
  | nil => simp at h
  | cons kv rest ih =>
      obtain ⟨k, vs⟩ := kv
      obtain ⟨kv', hmem, hempty⟩ := h
      rcases List.mem_cons.mp hmem with rfl | htail
      · rw [get_param_set, show vs = [] from hempty]
        rfl
      · rw [get_param_set, ih ⟨kv', htail, hempty⟩]
        simp

/-- Claim C4: a grid in which some key has an empty candidate list expands to
the empty sequence, and consequently the grid-search loop over that expansion
executes zero iterations. -/
theorem get_param_set_empty_candidates :
    (∀ {α : Type} (g : Grid α), (∃ kv ∈ g, kv.2 = []) → get_param_set g = []) ∧
    (∀ {π φ σ μ χ : Type} (E : Ext π φ σ μ χ) (X0 : List π) (X : List φ)
        (y : List ℚ) (s : σ) (g : Grid ℚ), (∃ kv ∈ g, kv.2 = []) →
        (grid_loop E X0 X y (get_param_set g).enum s).1 = []) := by
  refine ⟨fun g h => get_param_set_nil_of_empty g h, ?_⟩
  intro π φ σ μ χ E X0 X y s g h
  rw [get_param_set_nil_of_empty g h]
  rfl

/-- Witness for C4: the grid with the single key `a` and no candidates
expands to the empty sequence. -/
theorem get_param_set_empty_candidates_witness :
    (∃ kv ∈ ([("a", ([] : List ℕ))] : Grid ℕ), kv.2 = []) ∧
    get_param_set ([("a", ([] : List ℕ))] : Grid ℕ) = [] :=
  ⟨⟨("a", []), by simp, rfl⟩,
    get_param_set_empty_candidates.1 _ ⟨("a", []), by simp, rfl⟩⟩

/-- Claim C6: after a successful grid search, export saves a model store
entry named `house_rent` whose metadata is the selected best run's logged
hyper-parameters and whose declared callable signature is a `predict`
operation marked batchable with batch dimension 0; for a grid expanding to a
single parameter set, the exported metadata is exactly that parameter set. -/
theorem export_entry_spec {π φ σ μ χ : Type} (E : Ext π φ σ μ χ) :
    (∀ (runs : List (RunRecord φ μ χ)) best rest, search_runs runs = best :: rest →
        select_and_export runs = Except.ok
          { name := "house_rent"
            model := best.model
            signatures := [("predict", { batchable := true, batch_dim := 0 })]
            metadata := best.params }) ∧
    (∀ (p : ParamSet ℚ) (X0 : List π) (X : List φ) (y : List ℚ) (s : σ),
        ∃ r, (grid_loop E X0 X y ([p].enum) s).1 = [r] ∧ r.params = p ∧
          select_and_export (grid_loop E X0 X y ([p].enum) s).1 = Except.ok
            { name := "house_rent"
              model := r.model
              signatures := [("predict", { batchable := true, batch_dim := 0 })]
              metadata := p }) := by
  constructor
  · intro runs best rest hs
    rw [select_and_export, hs]
  · intro p X0 X y s
    exact ⟨(run_once E X0 X y 0 p s).1, rfl, rfl, rfl⟩

/-- A trivial instantiation of the driver's external collaborators, used to
evaluate the driver on concrete inputs. -/
def unitExt : Ext Unit Unit Unit Unit Unit :=
  { log1p := fun q => q
    ppFit := fun _ _ => ()
    ppApply := fun _ _ => ()
    fitRegr := fun _ _ _ => ()
    scoreFolds := fun _ _ _ => [0]
    render := fun _ _ => Except.ok () }

/-- Witness for C6: on the three concrete runs with RMSE 5, 2 and 3 the
selection hypothesis holds, and export produces the `house_rent` entry whose
metadata is the best run's parameters. -/
theorem export_entry_spec_witness :
    (search_runs [mkRun 0 5, mkRun 1 2, mkRun 2 3] = mkRun 1 2 :: []) ∧
    select_and_export [mkRun 0 5, mkRun 1 2, mkRun 2 3] = Except.ok
      { name := "house_rent"
        model := ()
        signatures := [("predict", { batchable := true, batch_dim := 0 })]
        metadata := [] } :=
  ⟨by rfl, (export_entry_spec unitExt).1 [mkRun 0 5, mkRun 1 2, mkRun 2 3]
    (mkRun 1 2) [] (by rfl)⟩

/-- The chart-free content of a run record: everything the tracker logs for a
run except the best-effort feature-importance chart. -/
def stripChart {φ μ χ : Type} (r : RunRecord φ μ χ) :
    ℕ × String × ParamSet ℚ × ℚ × ℕ × List φ × μ :=
  (r.run_id, r.estimator_name, r.params, r.rmse_cv, r.preprocessor_id,
    r.usedX, r.model)

theorem map_orderedInsert {α β : Type} (f : α → β) (r : α → α → Prop)
    (r' : β → β → Prop) [DecidableRel r] [DecidableRel r']
    (hf : ∀ a b, r' (f a) (f b) ↔ r a b) (a : α) (l : List α) :
    List.orderedInsert r' (f a) (l.map f) = (List.orderedInsert r a l).map f := by
  induction l with
  | nil => rfl
  | cons b l ih =>
      simp only [List.map_cons, List.orderedInsert]
      by_cases h : r a b
      · rw [if_pos ((hf a b).mpr h), if_pos h, List.map_cons, List.map_cons]
      · rw [if_neg (fun hc => h ((hf a b).mp hc)), if_neg h, List.map_cons, ih]

theorem map_insertionSort {α β : Type} (f : α → β) (r : α → α → Prop)
    (r' : β → β → Prop) [DecidableRel r] [DecidableRel r']
    (hf : ∀ a b, r' (f a) (f b) ↔ r a b) (l : List α) :
    List.insertionSort r' (l.map f) = (List.insertionSort r l).map f := by
  induction l with
  | nil => rfl
  | cons b l ih =>
      simp only [List.map_cons, List.insertionSort]
      rw [ih, map_orderedInsert f r r' hf]

theorem grid_loop_length {π φ σ μ χ : Type} (E : Ext π φ σ μ χ) (X0 : List π)
    (X : List φ) (y : List ℚ) (l : List (ℕ × ParamSet ℚ)) (s : σ) :
    (grid_loop E X0 X y l s).1.length = l.length := by
  induction l generalizing s with
  | nil => rfl
  | cons ip rest ih =>
      obtain ⟨i, p⟩ := ip
      simp only [grid_loop, List.length_cons, ih]

theorem grid_loop_render_chart {π φ σ μ χ : Type} (E : Ext π φ σ μ χ)
    (render' : List φ → μ → Except String χ) (X0 : List π) (X : List φ)
    (y : List ℚ) (l : List (ℕ × ParamSet ℚ)) (s : σ) :
    (grid_loop { E with render := render' } X0 X y l s).1 =
      (grid_loop E X0 X y l s).1.map
        (fun r => { r with chart := log_feature_importance render' r.usedX r.model }) ∧
    (grid_loop { E with render := render' } X0 X y l s).2 =
      (grid_loop E X0 X y l s).2 := by
  induction l generalizing s with
  | nil => exact ⟨rfl, rfl⟩
  | cons ip rest ih =>
      obtain ⟨i, p⟩ := ip
      have hih := ih (E.ppFit X0 y)
      refine ⟨?_, ?_⟩
      · simp only [grid_loop]
        rw [List.map_cons]
        exact congrArg₂ List.cons rfl hih.1
      · simp only [grid_loop]
        exact hih.2

theorem search_runs_map_chart {φ μ χ : Type} (c : RunRecord φ μ χ → Option χ)
    (runs : List (RunRecord φ μ χ)) :
    search_runs (runs.map fun r => { r with chart := c r }) =
      (search_runs runs).map fun r => { r with chart := c r } := by
  rw [search_runs, search_runs,
    map_insertionSort (fun r => { r with chart := c r })
      (fun a b : RunRecord φ μ χ => a.rmse_cv ≤ b.rmse_cv)
      (fun a b : RunRecord φ μ χ => a.rmse_cv ≤ b.rmse_cv)
      (fun a b => Iff.rfl) runs,
    List.map_take]

theorem select_and_export_map_chart {φ μ χ : Type} (c : RunRecord φ μ χ → Option χ)
    (runs : List (RunRecord φ μ χ)) :
    select_and_export (runs.map fun r => { r with chart := c r }) =
      select_and_export runs := by
  rw [select_and_export, select_and_export, search_runs_map_chart]
  cases search_runs runs with
  | nil => rfl
  | cons b t => rfl

/-- Claim C8: chart logging is best-effort — replacing the renderer by any
other one (including one that fails on every input) leaves the number of
completed runs, every run's chart-free logged data, and the result of
best-run selection and export unchanged; with an always-failing renderer each
run still completes, merely with no chart. -/
theorem chart_failure_harmless {π φ σ μ χ : Type} (E : Ext π φ σ μ χ)
    (render' : List φ → μ → Except String χ) (X0 : List π) (X : List φ)
    (y : List ℚ) (l : List (ℕ × ParamSet ℚ)) (s : σ) :
    ((grid_loop { E with render := render' } X0 X y l s).1.length = l.length) ∧
    ((grid_loop { E with render := render' } X0 X y l s).1.map stripChart =
      (grid_loop E X0 X y l s).1.map stripChart) ∧
    (select_and_export (grid_loop { E with render := render' } X0 X y l s).1 =
      select_and_export (grid_loop E X0 X y l s).1) ∧
    (∀ msg : String,
      ∀ r ∈ (grid_loop
          { E with render := fun (_ : List φ) (_ : μ) => (Except.error msg : Except String χ) }
          X0 X y l s).1,
        r.chart = none) := by
  refine ⟨grid_loop_length _ X0 X y l s, ?_, ?_, ?_⟩
  · rw [(grid_loop_render_chart E render' X0 X y l s).1, List.map_map]
    exact List.map_congr_left fun r _ => rfl
  · rw [(grid_loop_render_chart E render' X0 X y l s).1]
    exact select_and_export_map_chart _ _
  · intro msg r hr
    rw [(grid_loop_render_chart E
      (fun (_ : List φ) (_ : μ) => (Except.error msg : Except String χ))
      X0 X y l s).1] at hr
    obtain ⟨r0, -, rfl⟩ := List.mem_map.mp hr
    rfl

/-- Claim C9: the hard-coded grid of src/train.py:47-51 has three keys with
non-empty singleton candidate lists, its expansion is the one-element
sequence of that single parameter set, the loop therefore always tracks
exactly one run before selection, and the driver's zero-runs error branch is
not taken: `train_main` exports a model store entry. -/
theorem zero_run_branch_unreachable {π φ σ μ χ : Type} (E : Ext π φ σ μ χ)
    (prior : List (RunRecord φ μ χ)) (df : List (RawRow π)) :
    get_param_set params_candidates =
      [[("learning_rate", (1 : ℚ) / 100), ("max_depth", 3), ("max_features", 1)]] ∧
    (∀ (X0 : List π) (X : List φ) (y : List ℚ) (s : σ),
        (grid_loop E X0 X y (get_param_set params_candidates).enum s).1.length = 1) ∧
    ∃ entry, train_main E prior df = Except.ok entry := by
  refine ⟨rfl, fun X0 X y s => by rw [grid_loop_length]; rfl, ?_⟩
  have hne : prior ++ (grid_loop E (dropped df)
      (fit_transform E (dropped df) (target_y E df)).2 (target_y E df)
      (get_param_set params_candidates).enum
      (fit_transform E (dropped df) (target_y E df)).1).1 ≠ [] := by
    intro hcontra
    have hlen := congrArg List.length hcontra
    rw [List.length_append, grid_loop_length,
      show (get_param_set params_candidates).enum.length = 1 from rfl] at hlen
    simp at hlen
  obtain ⟨best, -, hok⟩ := select_and_export_ok
    (prior ++ (grid_loop E (dropped df)
      (fit_transform E (dropped df) (target_y E df)).2 (target_y E df)
      (get_param_set params_candidates).enum
      (fit_transform E (dropped df) (target_y E df)).1).1) hne
  exact ⟨_, hok⟩

theorem grid_loop_run_invariants {π φ σ μ χ : Type} (E : Ext π φ σ μ χ)
    (X0 : List π) (X : List φ) (y : List ℚ) (l : List (ℕ × ParamSet ℚ)) (s : σ) :
    ∀ r ∈ (grid_loop E X0 X y l s).1,
      r.usedX = X ∧ r.preprocessor_id = shared_preprocessor_id ∧
      r.rmse_cv = mean (E.scoreFolds r.params X y) ∧
      r.chart = log_feature_importance E.render X r.model := by
  induction l generalizing s with
  | nil => intro r hr; simp [grid_loop] at hr
  | cons ip rest ih =>
      obtain ⟨i, p⟩ := ip
      intro r hr
      rcases List.mem_cons.mp hr with rfl | htail
      · exact ⟨rfl, rfl, rfl, rfl⟩
      · exact ih (E.ppFit X0 y) r htail

theorem grid_loop_final_state {π φ σ μ χ : Type} (E : Ext π φ σ μ χ)
    (X0 : List π) (X : List φ) (y : List ℚ) (l : List (ℕ × ParamSet ℚ)) (s : σ)
    (h : l ≠ []) : (grid_loop E X0 X y l s).2 = E.ppFit X0 y := by
  induction l generalizing s with
  | nil => exact absurd rfl h
  | cons ip rest ih =>
      obtain ⟨i, p⟩ := ip
      cases rest with
      | nil => rfl
      | cons ip' rest' => exact ih (E.ppFit X0 y) (by simp)

theorem grid_loop_state_indep {π φ σ μ χ : Type} (E : Ext π φ σ μ χ)
    (X0 : List π) (X : List φ) (y : List ℚ) (l : List (ℕ × ParamSet ℚ))
    (s s' : σ) : (grid_loop E X0 X y l s).1 = (grid_loop E X0 X y l s').1 := by
  induction l with
  | nil => rfl
  | cons ip rest _ =>
      obtain ⟨i, p⟩ := ip
      rfl

/-- Claim C10: the shared preprocessing-pipeline instance appears in every
run's logged `Pipeline` and is re-fitted by each run's end-to-end fit (the
loop's final pipeline state is the re-fit of the raw predictors, and the run
records do not depend on the incoming pipeline state), while the feature
matrix handed to `rmse_cv_score` and to the chart logger in every run is the
`X` computed before the loop, never recomputed. -/
theorem shared_pipeline_matrix {π φ σ μ χ : Type} (E : Ext π φ σ μ χ)
    (X0 : List π) (X : List φ) (y : List ℚ) (l : List (ℕ × ParamSet ℚ))
    (s s' : σ) (h : l ≠ []) :
    (∀ r ∈ (grid_loop E X0 X y l s).1,
        r.usedX = X ∧ r.preprocessor_id = shared_preprocessor_id ∧
        r.rmse_cv = mean (E.scoreFolds r.params X y) ∧
        r.chart = log_feature_importance E.render X r.model) ∧
    (grid_loop E X0 X y l s).2 = E.ppFit X0 y ∧
    (grid_loop E X0 X y l s).1 = (grid_loop E X0 X y l s').1 :=
  ⟨grid_loop_run_invariants E X0 X y l s,
    grid_loop_final_state E X0 X y l s h,
    grid_loop_state_indep E X0 X y l s s'⟩

/-- Witness for C10 on a concrete one-iteration loop over the trivial
collaborators. -/
theorem shared_pipeline_matrix_witness :
    (([((0 : ℕ), ([] : ParamSet ℚ))] : List (ℕ × ParamSet ℚ)) ≠ []) ∧
    ((∀ r ∈ (grid_loop unitExt [] [] [] [((0 : ℕ), ([] : ParamSet ℚ))] ()).1,
        r.usedX = [] ∧ r.preprocessor_id = shared_preprocessor_id ∧
        r.rmse_cv = mean (unitExt.scoreFolds r.params [] []) ∧
        r.chart = log_feature_importance unitExt.render [] r.model) ∧
      (grid_loop unitExt [] [] [] [((0 : ℕ), ([] : ParamSet ℚ))] ()).2 =
        unitExt.ppFit [] [] ∧
      (grid_loop unitExt [] [] [] [((0 : ℕ), ([] : ParamSet ℚ))] ()).1 =
        (grid_loop unitExt [] [] [] [((0 : ℕ), ([] : ParamSet ℚ))] ()).1) :=
  ⟨by simp,
    shared_pipeline_matrix unitExt [] [] [] [((0 : ℕ), ([] : ParamSet ℚ))] () ()
      (by simp)⟩

/-- Witness for C2 at trivial feature/model/chart types: the empty run list
produces exactly the diagnostic error and no exported entry. -/
theorem zero_runs_fatal_witness :
    select_and_export ([] : List (RunRecord Unit Unit Unit)) =
      Except.error ("Found no runs for experiment '" ++ experiment_name ++ "'") ∧
    (∃ pre post,
      ("Found no runs for experiment '" ++ experiment_name ++ "'" : String) =
        pre ++ experiment_name ++ post) ∧
    ∀ entry : BentoModel Unit,
      select_and_export ([] : List (RunRecord Unit Unit Unit)) ≠ Except.ok entry :=
  zero_runs_fatal Unit Unit Unit

/-- Witness for C5 on a concrete one-row dataset over the trivial
collaborators. -/
theorem target_and_persisted_features_witness :
    target_y unitExt [⟨2, "L", "D", ()⟩] =
      ([⟨2, "L", "D", ()⟩] : List (RawRow Unit)).map (fun r => unitExt.log1p r.rent) ∧
    (persisted_features unitExt [⟨2, "L", "D", ()⟩]).length =
      ([⟨2, "L", "D", ()⟩] : List (RawRow Unit)).length ∧
    (persisted_features unitExt [⟨2, "L", "D", ()⟩]).map Prod.snd =
      ([⟨2, "L", "D", ()⟩] : List (RawRow Unit)).map (fun r => unitExt.log1p r.rent) :=
  target_and_persisted_features unitExt [⟨2, "L", "D", ()⟩]

/-- Witness for C8 on a concrete one-iteration loop: a renderer that always
fails changes neither the number of completed runs, nor the chart-free run
data, nor selection and export. -/
theorem chart_failure_harmless_witness :
    ((grid_loop
        { unitExt with
          render := fun (_ : List Unit) (_ : Unit) => (Except.error "boom" : Except String Unit) }
        [] [] [] [((0 : ℕ), ([] : ParamSet ℚ))] ()).1.length =
      ([((0 : ℕ), ([] : ParamSet ℚ))] : List (ℕ × ParamSet ℚ)).length) ∧
    ((grid_loop
        { unitExt with
          render := fun (_ : List Unit) (_ : Unit) => (Except.error "boom" : Except String Unit) }
        [] [] [] [((0 : ℕ), ([] : ParamSet ℚ))] ()).1.map stripChart =
      (grid_loop unitExt [] [] [] [((0 : ℕ), ([] : ParamSet ℚ))] ()).1.map stripChart) ∧
    (select_and_export
        (grid_loop
          { unitExt with
            render := fun (_ : List Unit) (_ : Unit) => (Except.error "boom" : Except String Unit) }
          [] [] [] [((0 : ℕ), ([] : ParamSet ℚ))] ()).1 =
      select_and_export (grid_loop unitExt [] [] [] [((0 : ℕ), ([] : ParamSet ℚ))] ()).1) ∧
    (∀ msg : String,
      ∀ r ∈ (grid_loop
          { unitExt with
            render := fun (_ : List Unit) (_ : Unit) => (Except.error msg : Except String Unit) }
          [] [] [] [((0 : ℕ), ([] : ParamSet ℚ))] ()).1,
        r.chart = none) :=
  chart_failure_harmless unitExt
    (fun (_ : List Unit) (_ : Unit) => (Except.error "boom" : Except String Unit))
    [] [] [] [((0 : ℕ), ([] : ParamSet ℚ))] ()

/-- Witness for C9 on the trivial collaborators with an empty prior
experiment and an empty dataset: the driver still tracks its one run and
exports. -/
theorem zero_run_branch_unreachable_witness :
    get_param_set params_candidates =
      [[("learning_rate", (1 : ℚ) / 100), ("max_depth", 3), ("max_features", 1)]] ∧
    (∀ (X0 : List Unit) (X : List Unit) (y : List ℚ) (s : Unit),
        (grid_loop unitExt X0 X y (get_param_set params_candidates).enum s).1.length = 1) ∧
    ∃ entry, train_main unitExt [] [] = Except.ok entry :=
  zero_run_branch_unreachable unitExt [] []

end HouseRent
